import Mathlib

/-!
Verification development for the Mentis diary-analysis assistant.

Shallow embedding of the result-formatting pipeline of the repository
(`core/mentis_chat.py`), interactive loop (`mentis_main.py`) and retrieval
evaluation harness (`tests/test_retrieval_eval.py`, with the adapter layer
from `evaluation/adapters.py` modelled from the spec and its unit tests).

Python values are modelled as follows: attribute probing (`hasattr`) over the
descriptive fields of a chunk record becomes a structure of `Option String`
fields; Python dicts preserving insertion order become association lists;
Python numbers become `Int` (int) and `Rat` (float); a fallible external call
becomes a function into `Except`.
-/

namespace Mentis

/-! ## Result formatter (`core/mentis_chat.py`, `MentisChat._format_main_results`) -/

/-- A record coming back from the main retriever, as seen by the formatter.
`title`/`name`/`description`/`content` are `some` exactly when the Python
object has that attribute (`hasattr`); `strForm` is `str(model_instance)`. -/
structure PyRecord where
  title : Option String
  name : Option String
  description : Option String
  content : Option String
  strForm : String
deriving DecidableEq

/-- One entry of a category result list: the Python code accepts either a
`(model, score)` tuple or a bare model object
(`item[0] if isinstance(item, tuple) else item`). -/
inductive ResultItem where
  | tup (m : PyRecord) (score : ℚ)
  | bare (m : PyRecord)
deriving DecidableEq

/-- Python expression `item[0] if isinstance(item, tuple) else item`. -/
def itemRecord : ResultItem → PyRecord
  | .tup m _ => m
  | .bare m => m

/-- The per-record branch of `_format_main_results` (lines 44–51): a fixed
priority order of attribute probes. -/
def formatRecord (m : PyRecord) : String :=
  if m.title.isSome && m.description.isSome then
    "• " ++ m.title.getD "" ++ ": " ++ m.description.getD ""
  else if m.name.isSome && m.description.isSome then
    "• " ++ m.name.getD "" ++ ": " ++ m.description.getD ""
  else if m.content.isSome then
    "• " ++ m.content.getD ""
  else
    "• " ++ m.strForm

/-- The `formatted_parts` list built by `_format_main_results` (lines 35–51):
for each category with a non-empty item list, a header line followed by one
line per item.  The results dict is modelled as an association list in
insertion order. -/
def formattedParts (results : List (String × List ResultItem)) : List String :=
  results.flatMap (fun p =>
    if p.2.isEmpty then []
    else ("\n--- " ++ p.1 ++ " ---") :: p.2.map (fun it => formatRecord (itemRecord it)))

/-- Method `MentisChat._format_main_results` (lines 30–53). -/
def format_main_results (results : List (String × List ResultItem)) : String :=
  if results.isEmpty then "No relevant information found."
  else if (formattedParts results).isEmpty then "No relevant information found."
  else String.intercalate "\n" (formattedParts results)

/-- C1: per-record rendering follows the fixed priority order
title/description, then name/description, then content, then the generic
string form; a record exposing both (title, description) and
(name, description) renders via the title/description rule. -/
theorem formatRecord_priority :
    (∀ (m : PyRecord) (t d : String), m.title = some t → m.description = some d →
        formatRecord m = "• " ++ t ++ ": " ++ d) ∧
    (∀ (m : PyRecord) (n d : String), m.title = none → m.name = some n →
        m.description = some d →
        formatRecord m = "• " ++ n ++ ": " ++ d) ∧
    (∀ (m : PyRecord) (c : String), (m.title = none ∨ m.description = none) →
        (m.name = none ∨ m.description = none) → m.content = some c →
        formatRecord m = "• " ++ c) ∧
    (∀ (m : PyRecord), (m.title = none ∨ m.description = none) →
        (m.name = none ∨ m.description = none) → m.content = none →
        formatRecord m = "• " ++ m.strForm) := by
  refine ⟨?_, ?_, ?_, ?_⟩
  · intro m t d ht hd
    simp [formatRecord, ht, hd]
  · intro m n d ht hn hd
    simp [formatRecord, ht, hn, hd]
  · intro m c h1 h2 hc
    rcases h1 with h1 | h1 <;> rcases h2 with h2 | h2 <;>
      simp [formatRecord, h1, h2, hc]
  · intro m h1 h2 hc
    rcases h1 with h1 | h1 <;> rcases h2 with h2 | h2 <;>
      simp [formatRecord, h1, h2, hc]

/-- Witness for C1: the four priority branches evaluated on concrete records,
in particular a record exposing title, name and description renders via the
title/description rule. -/
theorem formatRecord_priority_witness :
    formatRecord ⟨some "T", some "N", some "D", some "C", "R"⟩ = "• T: D" ∧
    formatRecord ⟨none, some "N", some "D", some "C", "R"⟩ = "• N: D" ∧
    formatRecord ⟨none, none, none, some "C", "R"⟩ = "• C" ∧
    formatRecord ⟨none, none, none, none, "R"⟩ = "• R" :=
  ⟨formatRecord_priority.1 ⟨some "T", some "N", some "D", some "C", "R"⟩ "T" "D" rfl rfl,
   formatRecord_priority.2.1 ⟨none, some "N", some "D", some "C", "R"⟩ "N" "D" rfl rfl rfl,
   formatRecord_priority.2.2.1 ⟨none, none, none, some "C", "R"⟩ "C" (Or.inl rfl)
     (Or.inl rfl) rfl,
   formatRecord_priority.2.2.2 ⟨none, none, none, none, "R"⟩ (Or.inl rfl) (Or.inl rfl) rfl⟩

/-- C2: on the empty Result Set the formatter returns the fixed sentinel
string, which is non-empty. -/
theorem format_main_results_empty :
    format_main_results [] = "No relevant information found." ∧
    format_main_results [] ≠ "" := by
  constructor
  · rfl
  · decide

/-! ### Score independence and header emission -/

/-- Projection of a Result Set to its category keys and record objects,
forgetting scores and the tuple-vs-bare wrapping. -/
def itemsRecords (rs : List (String × List ResultItem)) : List (String × List PyRecord) :=
  rs.map (fun p => (p.1, p.2.map itemRecord))

/-- Variant of `formattedParts` computed over the projected records only. -/
def partsOfRecords (rrs : List (String × List PyRecord)) : List String :=
  rrs.flatMap (fun p =>
    if p.2.isEmpty then []
    else ("\n--- " ++ p.1 ++ " ---") :: p.2.map formatRecord)

lemma formattedParts_eq_partsOfRecords (rs : List (String × List ResultItem)) :
    formattedParts rs = partsOfRecords (itemsRecords rs) := by
  induction rs with
  | nil => rfl
  | cons p rest ih =>
    simp only [formattedParts, partsOfRecords, itemsRecords, List.map_cons,
      List.flatMap_cons, List.map_map] at *
    rw [ih]
    by_cases he : p.2 = []
    · simp [he]
    · simp [he, List.isEmpty_iff, Function.comp_def]

/-- C9: the formatter output depends only on the category keys (in order)
and the record objects; scores and the (record, score) vs bare-record
wrapping are irrelevant. -/
theorem format_main_results_ignores_scores
    (rs₁ rs₂ : List (String × List ResultItem))
    (h : itemsRecords rs₁ = itemsRecords rs₂) :
    format_main_results rs₁ = format_main_results rs₂ := by
  have hp : formattedParts rs₁ = formattedParts rs₂ := by
    rw [formattedParts_eq_partsOfRecords, formattedParts_eq_partsOfRecords, h]
  have hl : rs₁.length = rs₂.length := by
    simpa [itemsRecords] using congrArg List.length h
  cases rs₁ with
  | nil =>
    cases rs₂ with
    | nil => rfl
    | cons b bs => simp at hl
  | cons a as =>
    cases rs₂ with
    | nil => simp at hl
    | cons b bs => simp [format_main_results, hp]

/-- Witness for C9: two Result Sets with the same records but different
scores and wrappings format identically. -/
theorem format_main_results_ignores_scores_witness :
    itemsRecords
        [("Event", [ResultItem.tup ⟨some "T", none, some "D", none, "R1"⟩ 5,
                    ResultItem.bare ⟨none, none, none, some "C", "R2"⟩])] =
      itemsRecords
        [("Event", [ResultItem.bare ⟨some "T", none, some "D", none, "R1"⟩,
                    ResultItem.tup ⟨none, none, none, some "C", "R2"⟩ (1 / 2)])] ∧
    format_main_results
        [("Event", [ResultItem.tup ⟨some "T", none, some "D", none, "R1"⟩ 5,
                    ResultItem.bare ⟨none, none, none, some "C", "R2"⟩])] =
      format_main_results
        [("Event", [ResultItem.bare ⟨some "T", none, some "D", none, "R1"⟩,
                    ResultItem.tup ⟨none, none, none, some "C", "R2"⟩ (1 / 2)])] :=
  ⟨rfl, format_main_results_ignores_scores _ _ rfl⟩

lemma formattedParts_nil_of_all_empty (rs : List (String × List ResultItem))
    (h : ∀ p ∈ rs, p.2 = []) : formattedParts rs = [] := by
  induction rs with
  | nil => rfl
  | cons p rest ih =>
    have hp := h p (List.mem_cons_self p rest)
    simp [formattedParts, List.flatMap_cons, hp]
    have := ih (fun q hq => h q (List.mem_cons_of_mem _ hq))
    simpa [formattedParts] using this

/-- Every branch of `formatRecord` emits a bullet-prefixed line. -/
lemma formatRecord_bullet (m : PyRecord) : ∃ r, formatRecord m = "• " ++ r := by
  unfold formatRecord
  split
  · exact ⟨_, by rw [String.append_assoc, String.append_assoc]⟩
  · split
    · exact ⟨_, by rw [String.append_assoc, String.append_assoc]⟩
    · split
      · exact ⟨_, rfl⟩
      · exact ⟨_, rfl⟩

/-- A category header line is never equal to a record line. -/
lemma header_ne_formatRecord (c : String) (m : PyRecord) :
    ("\n--- " ++ c ++ " ---") ≠ formatRecord m := by
  obtain ⟨r, hr⟩ := formatRecord_bullet m
  rw [hr]
  intro heq
  have hd := congrArg String.data heq
  rw [String.data_append, String.data_append, String.data_append] at hd
  have h1 : "\n--- ".data = '\n' :: "--- ".data := rfl
  have h2 : "• ".data = '•' :: " ".data := rfl
  rw [h1, h2, List.cons_append, List.cons_append] at hd
  injection hd with hchar _
  exact absurd hchar (by decide)

/-- Category headers are injective in the category name. -/
lemma header_inj {c c' : String}
    (h : "\n--- " ++ c ++ " ---" = "\n--- " ++ c' ++ " ---") : c = c' := by
  have hd := congrArg String.data h
  rw [String.data_append, String.data_append, String.data_append,
    String.data_append, List.append_assoc, List.append_assoc] at hd
  exact String.ext (List.append_cancel_right (List.append_cancel_left hd))

lemma header_mem_formattedParts {rs : List (String × List ResultItem)} {c : String}
    (h : ("\n--- " ++ c ++ " ---") ∈ formattedParts rs) :
    ∃ items, (c, items) ∈ rs ∧ items ≠ [] := by
  induction rs with
  | nil => simp [formattedParts] at h
  | cons p rest ih =>
    obtain ⟨cat, items⟩ := p
    rw [formattedParts, List.flatMap_cons] at h
    rcases List.mem_append.mp h with hin | hin
    · by_cases he : items.isEmpty
      · simp [he] at hin
      · simp only [he, if_neg, Bool.false_eq_true, not_false_iff, if_false] at hin
        rcases List.mem_cons.mp hin with hhd | hline
        · have : c = cat := header_inj hhd
          subst this
          exact ⟨items, List.mem_cons_self _ _, by simpa [List.isEmpty_iff] using he⟩
        · obtain ⟨it, _, hit⟩ := List.mem_map.mp hline
          exact absurd hit.symm (header_ne_formatRecord c (itemRecord it))
    · obtain ⟨items', hmem, hne⟩ := ih (by simpa [formattedParts] using hin)
      exact ⟨items', List.mem_cons_of_mem _ hmem, hne⟩

/-- C10: a non-empty Result Set all of whose category lists are empty emits
no headers and no record lines and still returns the sentinel string; and a
category header is emitted only for a category whose result list is
non-empty. -/
theorem format_main_results_all_empty_categories :
    (∀ rs : List (String × List ResultItem), rs ≠ [] → (∀ p ∈ rs, p.2 = []) →
        formattedParts rs = [] ∧
        format_main_results rs = "No relevant information found.") ∧
    (∀ (rs : List (String × List ResultItem)) (c : String),
        ("\n--- " ++ c ++ " ---") ∈ formattedParts rs →
        ∃ items, (c, items) ∈ rs ∧ items ≠ []) := by
  constructor
  · intro rs hne hall
    have hp := formattedParts_nil_of_all_empty rs hall
    refine ⟨hp, ?_⟩
    cases rs with
    | nil => exact absurd rfl hne
    | cons p rest => simp [format_main_results, hp]
  · intro rs c h
    exact header_mem_formattedParts h

/-- Witness for C10: a two-category Result Set with only empty lists
formats to the sentinel, and a concrete emitted header comes from a
non-empty category. -/
theorem format_main_results_all_empty_categories_witness :
    (formattedParts [("Event", []), ("Person", [])] = [] ∧
     format_main_results [("Event", []), ("Person", [])] =
       "No relevant information found.") ∧
    (∃ items, ("Event", items) ∈
        [("Event", [ResultItem.bare ⟨none, none, none, some "C", "R"⟩])] ∧
      items ≠ []) :=
  ⟨format_main_results_all_empty_categories.1 [("Event", []), ("Person", [])]
      (by decide) (by decide),
   format_main_results_all_empty_categories.2
      [("Event", [ResultItem.bare ⟨none, none, none, some "C", "R"⟩])] "Event"
      (by decide)⟩

/-! ## Python string helpers

`str.strip` / `str.lower` from `mentis_main.py` and the substring operator
`in` from `test_retrieval_eval.py`, modelled directly over the character
list of a string (for `lower`, via `Char.toLower`, which covers the ASCII
exit tokens the code compares against). -/

/-- Python `str.strip()`: drop whitespace from both ends. -/
def pyStrip (s : String) : String :=
  ⟨(((s.data.dropWhile Char.isWhitespace).reverse).dropWhile Char.isWhitespace).reverse⟩

/-- Python `str.lower()` (ASCII range). -/
def pyLower (s : String) : String :=
  ⟨s.data.map Char.toLower⟩

/-- Python `needle in haystack` on character lists. -/
def listContainsSub (needle : List Char) : List Char → Bool
  | [] => needle.isEmpty
  | c :: rest => needle.isPrefixOf (c :: rest) || listContainsSub needle rest

/-- Python `sub in s` on strings. -/
def strContains (s sub : String) : Bool :=
  listContainsSub sub.data s.data

lemma isPrefixOf_self (l : List Char) : l.isPrefixOf l = true := by
  induction l with
  | nil => rfl
  | cons c rest ih => simp [List.isPrefixOf, ih]

lemma listContainsSub_append_left (p n : List Char) :
    listContainsSub n (p ++ n) = true := by
  induction p with
  | nil =>
    cases n with
    | nil => rfl
    | cons c rest => simp [listContainsSub, isPrefixOf_self]
  | cons c rest ih => simp [listContainsSub, ih]

/-! ## Answer generation (`core/mentis_chat.py`, `MentisChat._generate_answer`) -/

/-- Modelled from the spec: `config/prompts.py` (the fixed instruction
template `mentisPrompt`) is not part of the sources in scope; the spec
describes it only as "a fixed instruction template", so it is modelled as an
arbitrary fixed string whose content the theorems never depend on. -/
def mentisPrompt : String := "mentis instruction template"

/-- The prompt assembled by `_generate_answer` (lines 57–64). -/
def buildPrompt (user_query context : String) : String :=
  mentisPrompt ++ "\n\nUser Question: " ++ user_query ++
    "\n\nRetrieved Information:\n" ++ context ++ "\n\nAnswer:"

/-- Method `MentisChat._generate_answer` (lines 55–70): the LLM client
(`core/llm.py`, an external collaborator per the spec) is modelled as an
arbitrary fallible function; `Except.error e` models `generate` raising an
exception whose `str` is `e`. -/
def generate_answer (generate : String → Except String String)
    (user_query context : String) : String :=
  match generate (buildPrompt user_query context) with
  | .ok response => response
  | .error e => "Error generating response: " ++ e

/-- C5: if the answer-generation call raises, the chat operation returns an
inline error string containing the error message instead of propagating the
exception. -/
theorem generate_answer_error_inline
    (generate : String → Except String String) (q ctx e : String)
    (h : generate (buildPrompt q ctx) = Except.error e) :
    generate_answer generate q ctx = "Error generating response: " ++ e ∧
    strContains (generate_answer generate q ctx) e = true := by
  have hval : generate_answer generate q ctx = "Error generating response: " ++ e := by
    simp [generate_answer, h]
  refine ⟨hval, ?_⟩
  rw [hval]
  show listContainsSub e.data ("Error generating response: " ++ e).data = true
  rw [String.data_append]
  exact listContainsSub_append_left _ _

/-- Witness for C5: a generator that always raises yields the inline error
string. -/
theorem generate_answer_error_inline_witness :
    generate_answer (fun _ => Except.error "boom") "what happened?" "ctx" =
      "Error generating response: " ++ "boom" ∧
    strContains
      (generate_answer (fun _ => Except.error "boom") "what happened?" "ctx")
      "boom" = true :=
  generate_answer_error_inline (fun _ => Except.error "boom") "what happened?" "ctx"
    "boom" rfl

/-! ## Chat session resources (`core/mentis_chat.py` lines 6–15,
`mentis_main.py` lines 27–58) -/

/-- The connection handles held by a `MentisChat` session: `__init__`
constructs a `Retriever` and an `LLM_OA` client (both external
collaborators), modelled as two open-connection flags. -/
structure MentisChatSession where
  retrieverConn : Bool
  llmConn : Bool
deriving DecidableEq

/-- Constructor `MentisChat.__init__`: both clients are acquired at session start. -/
def mentisChatInit : MentisChatSession := ⟨true, true⟩

/-- Method `MentisChat.__enter__` (returns `self`). -/
def mentisChatEnter (s : MentisChatSession) : MentisChatSession := s

/-- Method `MentisChat.__exit__` (lines 14–15): the body is `pass`; the argument
records whether the block is exiting with an exception. -/
def mentisChatExit (s : MentisChatSession) (_excPresent : Bool) : MentisChatSession := s

/-- The `with MentisChat() as mentis:` block of `mentis_main.main`
(lines 27–58): `__enter__` on entry, the body, and `__exit__` on both the
normal and the exceptional exit path. -/
def withMentisChat {α : Type} (body : MentisChatSession → Except String α) :
    Except String α × MentisChatSession :=
  let s := mentisChatEnter mentisChatInit
  match body s with
  | .ok a => (.ok a, mentisChatExit s false)
  | .error e => (.error e, mentisChatExit s true)

/-- Counterexample to C6: on a normal exit of the scoped block the exit
handler leaves both connections open — it does not release them. -/
theorem mentisChatExit_counterexample :
    ¬ ((mentisChatExit mentisChatInit false).retrieverConn = false ∧
       (mentisChatExit mentisChatInit false).llmConn = false) := by
  decide

/-- C6 (amended): the exit handler of the session is invoked on every exit path
of the scoped block, but its body is `pass`: it performs no release, and the
connections acquired at session start are still open after exit on both the
normal and the exceptional path. -/
theorem mentisChatExit_noop {α : Type} (body : MentisChatSession → Except String α) :
    (withMentisChat body).2.retrieverConn = true ∧
    (withMentisChat body).2.llmConn = true := by
  simp only [withMentisChat, mentisChatEnter, mentisChatInit, mentisChatExit]
  cases body ⟨true, true⟩ <;> exact ⟨rfl, rfl⟩

/-! ## Interactive CLI loop (`mentis_main.py`, `main`, lines 28–51) -/

/-- One observable step of the read-evaluate-print loop. -/
inductive CliEvent where
  | goodbye
  | retryPrompt
  | response (text : String)
deriving DecidableEq

/-- The exit tokens of the loop (quit, exit, q). -/
def exitTokens : List String := ["quit", "exit", "q"]

/-- The loop of `main` over a finite sequence of input lines: each line is
stripped; an exit token (compared lowercased) breaks the loop; an empty line
prints a retry prompt and continues; anything else is submitted as one query
to `mentis.chat` and prints a response block. -/
def runCli (chat : String → String) : List String → List CliEvent
  | [] => []
  | line :: rest =>
    let q := pyStrip line
    if pyLower q ∈ exitTokens then [CliEvent.goodbye]
    else if q = "" then CliEvent.retryPrompt :: runCli chat rest
    else CliEvent.response (chat q) :: runCli chat rest

/-- C7: a line whose stripped, lowercased form is an exit token terminates
the loop; an empty stripped line yields a retry prompt, is not an exit and
is not submitted; every other line is submitted as one query and yields a
response block. -/
theorem runCli_line_handling (chat : String → String) (line : String)
    (rest : List String) :
    (pyLower (pyStrip line) ∈ exitTokens →
        runCli chat (line :: rest) = [CliEvent.goodbye]) ∧
    (pyStrip line = "" →
        runCli chat (line :: rest) = CliEvent.retryPrompt :: runCli chat rest) ∧
    (pyStrip line ≠ "" → pyLower (pyStrip line) ∉ exitTokens →
        runCli chat (line :: rest) =
          CliEvent.response (chat (pyStrip line)) :: runCli chat rest) := by
  refine ⟨?_, ?_, ?_⟩
  · intro h
    simp [runCli, h]
  · intro h
    have hq : pyLower "" ∉ exitTokens := by decide
    simp [runCli, h, hq]
  · intro h1 h2
    simp [runCli, h1, h2]

/-- Witness for C7: a cased, padded exit token ends the loop; a blank line
retries; an ordinary line produces a response block. -/
theorem runCli_line_handling_witness :
    runCli (fun s => "ans: " ++ s) ["  QuIt ", "hello"] = [CliEvent.goodbye] ∧
    runCli (fun s => "ans: " ++ s) ["   ", "hello"] =
      CliEvent.retryPrompt :: runCli (fun s => "ans: " ++ s) ["hello"] ∧
    runCli (fun s => "ans: " ++ s) [" hello there ", "exit"] =
      CliEvent.response ("ans: " ++ pyStrip " hello there ") ::
        runCli (fun s => "ans: " ++ s) ["exit"] :=
  ⟨(runCli_line_handling (fun s => "ans: " ++ s) "  QuIt " ["hello"]).1 (by decide),
   (runCli_line_handling (fun s => "ans: " ++ s) "   " ["hello"]).2.1 (by decide),
   (runCli_line_handling (fun s => "ans: " ++ s) " hello there " ["exit"]).2.2
      (by decide) (by decide)⟩

/-! ## Evaluation harness (`tests/test_retrieval_eval.py`) -/

/-- The class of a Python exception, as far as the handlers of the harness
distinguish them. -/
inductive PyError where
  | keyError
  | typeError
  | valueError
  | otherError
deriving DecidableEq

/-- A Python value as obtained from the result object of the external metrics
library
object by subscripting. -/
inductive PyVal where
  | num (q : ℚ)
  | strVal (s : String)
  | other
deriving DecidableEq

/-- A JSON-serializable value in a summary record (Python distinguishes
`int` and `float`). -/
inductive JsonVal where
  | str (s : String)
  | int (n : ℤ)
  | float (q : ℚ)
deriving DecidableEq

/-- A Python dict with string keys in insertion order. -/
abbrev ResultDict := List (String × JsonVal)

/-- Python `d[k] = v`: replace in place, or append preserving insertion
order. -/
def dictSet (d : ResultDict) (k : String) (v : JsonVal) : ResultDict :=
  if d.any (fun p => p.1 == k) then
    d.map (fun p => if p.1 == k then (k, v) else p)
  else d ++ [(k, v)]

/-- Python `d.get(k)` / `k in d` (as an `Option`). -/
def dictGet (d : ResultDict) (k : String) : Option JsonVal :=
  (d.find? (fun p => p.1 == k)).map (fun p => p.2)

/-- The metric name the harness extracts (`ContextRelevance` in ragas 0.3.0
reports as `nv_context_relevance`; the configured metrics list
`self.metrics = [ContextRelevance()]` is modelled by this one name). -/
def nvName : String := "nv_context_relevance"

/-- An ASCII single-quote character (the quotes appearing in the regex
pattern around the metric name). -/
def squote : Char := Char.ofNat 39

/-- The literal part of the regex pattern
`r"squote nv_context_relevance squote : space ([\d.]+)"` used at line 144. -/
def nvPatternLit : List Char :=
  squote :: (nvName.data ++ (squote :: (": ".data)))

/-- The character class `[\d.]` of the capture group. -/
def isDigitOrDot (c : Char) : Bool := c.isDigit || c == '.'

/-- Maximal run of `[\d.]` characters. -/
def takeDigitsDots : List Char → List Char
  | [] => []
  | c :: cs => if isDigitOrDot c then c :: takeDigitsDots cs else []

/-- Model of `re.search` for the pattern above: the capture group at the leftmost
position where the literal is followed by at least one `[\d.]` character. -/
def regexSearchNv : List Char → Option (List Char)
  | [] => none
  | c :: rest =>
    if nvPatternLit.isPrefixOf (c :: rest) then
      let cap := takeDigitsDots ((c :: rest).drop nvPatternLit.length)
      if cap.isEmpty then regexSearchNv rest else some cap
    else regexSearchNv rest

/-- Value of a digit run. -/
def digitsVal (cs : List Char) : ℕ :=
  cs.foldl (fun a c => a * 10 + (c.toNat - 48)) 0

/-- Value of a `[\d.]+` string with at most one dot, as a rational. -/
def ratOfDigitsDots (cs : List Char) : ℚ :=
  let intPart := cs.takeWhile (fun c => !(c == '.'))
  let fracPart := (cs.dropWhile (fun c => !(c == '.'))).drop 1
  (digitsVal intPart : ℚ) + (digitsVal fracPart : ℚ) / ((10 : ℚ) ^ fracPart.length)

/-- Python `float(s)` on a string of digits and dots (signs and exponents,
which the capture group `[\d.]+` can never produce, are not modelled): a
`ValueError` unless the string has at least one digit and at most one
dot. -/
def pyFloatChars (cs : List Char) : Except PyError ℚ :=
  if cs.all isDigitOrDot && (cs.count '.' ≤ 1 : Bool) && cs.any Char.isDigit then
    Except.ok (ratOfDigitsDots cs)
  else Except.error PyError.valueError

/-- Python `float(score)` on the value obtained by subscripting the result
object. -/
def pyFloatOf : PyVal → Except PyError ℚ
  | .num q => .ok q
  | .strVal s => pyFloatChars s.data
  | .other => .error .typeError

/-- The result object of the external metrics library, as far as the harness
inspects it: its printed representation `str(results)`, whether it supports
subscripting (`hasattr` probing for the dunder getitem name), and
the outcome of `results[nv_context_relevance]`. -/
structure RagasResults where
  reprStr : String
  hasGetitem : Bool
  getItem : Except PyError PyVal

/-- Modelled from the spec: `evaluation/adapters.py`
(`MentisRetrieverAdapter.retrieve`) is not among the sources in scope, only
its unit tests are. Per the spec ("skip a query for a given adapter if it
raises") and `test_retrieve_error_handling` (a raising underlying retriever
makes `adapter.retrieve` return `[]`), a raising retrieval is converted to
an empty text list. -/
def adapterRetrieve (underlying : String → Except String (List String))
    (query : String) : List String :=
  match underlying query with
  | .ok docs => docs
  | .error _ => []

/-- Method `RetrievalEvaluator.create_ragas_dataset` (lines 84–95): one retrieval
per query; a query is added to the dataset only if it produced at least one
text (`if retrieved_docs:`). -/
def create_ragas_dataset (retrieve : String → List String)
    (queries : List String) : List (String × List String) :=
  queries.filterMap (fun q =>
    let docs := retrieve q
    if docs.isEmpty then none else some (q, docs))

/-- The direct-access attempt (lines 149–153): `results[nvName]` then
`float(score)`, under `except (KeyError, TypeError): pass`; any other
exception reaches the generic handler at line 155, which only prints — in
every failure case the dict built so far is kept unchanged. -/
def extractDirect (results : RagasResults) (d : ResultDict) : ResultDict :=
  match results.getItem with
  | .ok score =>
    match pyFloatOf score with
    | .ok v => dictSet d nvName (.float v)
    | .error _ => d
  | .error _ => d

/-- The `try` body at lines 139–153: the regex fallback over `str(results)`
(guarded by the substring test at line 141), then the direct access. If
`float` on the captured group raises, the whole `try` aborts to the generic
handler at line 155 (which only prints), so the direct access is skipped
and the dict is returned as mutated so far. -/
def extractTryBody (results : RagasResults) (d : ResultDict) : ResultDict :=
  if strContains results.reprStr nvName then
    match regexSearchNv results.reprStr.data with
    | some cap =>
      match pyFloatChars cap with
      | .ok v => extractDirect results (dictSet d nvName (.float v))
      | .error _ => d
    | none => extractDirect results d
  else extractDirect results d

/-- Lines 137–158: extraction only runs when the result object supports
subscripting; otherwise only a diagnostic is printed. (The handler at lines
160–169, which would default each metric to `0.0`, catches only
`KeyError`/`TypeError`/`ValueError` raised *outside* the inner `try` at
line 139 — i.e. by `metric.name` or `str(results)`, both modelled as total
attribute accesses — so no branch of this function corresponds to it.) -/
def extractInto (results : RagasResults) (d : ResultDict) : ResultDict :=
  if results.hasGetitem then extractTryBody results d else d

/-- Method `RetrievalEvaluator.evaluate_retriever` (lines 97–175): build the
dataset, bail out with an error record when it is empty, call the external
`evaluate` (modelled as a fallible function of the dataset; a raised
exception is caught by the outermost handler at line 173 and converted to
an error record), then build the summary record and extract the metric. -/
def evaluate_retriever (retriever_name : String)
    (retrieve : String → List String) (queries : List String)
    (evalFn : List (String × List String) → Except String RagasResults) :
    ResultDict :=
  let dataset := create_ragas_dataset retrieve queries
  if dataset.length = 0 then [("error", JsonVal.str "No valid data")]
  else
    match evalFn dataset with
    | .error e => [("error", JsonVal.str e)]
    | .ok results =>
        extractInto results
          [("retriever", JsonVal.str retriever_name),
           ("num_queries", JsonVal.int dataset.length),
           ("raw_results", JsonVal.str results.reprStr)]

/-- Method `RetrievalEvaluator.run_evaluation` (lines 177–200): every registered
adapter is evaluated and contributes one entry to the result mapping. -/
def run_evaluation (adapters : List (String × (String → List String)))
    (queries : List String)
    (evalFn : List (String × List String) → Except String RagasResults) :
    List (String × ResultDict) :=
  adapters.map (fun p => (p.1, evaluate_retriever p.1 p.2 queries evalFn))

/-- The value the regex fallback path would record, if any. -/
def regexExtract (results : RagasResults) : Option ℚ :=
  if strContains results.reprStr nvName then
    match regexSearchNv results.reprStr.data with
    | some cap => (pyFloatChars cap).toOption
    | none => none
  else none

/-- The value the direct-access path would record, if any. -/
def directExtract (results : RagasResults) : Option ℚ :=
  match results.getItem with
  | .ok v => (pyFloatOf v).toOption
  | .error _ => none

/-- A file written by `save_results`, with the parameters of the `open` and
`json.dump` calls. -/
structure FileWrite where
  path : String
  mode : String
  encoding : String
  indent : ℕ
  ensure_ascii : Bool
  content : ResultDict
deriving DecidableEq

/-- Method `RetrievalEvaluator.save_results` (lines 202–211): for each retriever
whose record has no `error` key, one `results_<name>.json` file under the
output directory, opened with mode `w` (overwriting) and encoding `utf-8`,
dumped with `indent=2` and `ensure_ascii=False`. -/
def save_results (results : List (String × ResultDict)) (output_dir : String) :
    List FileWrite :=
  results.filterMap (fun p =>
    if (dictGet p.2 "error").isNone then
      some ⟨output_dir ++ "/results_" ++ p.1 ++ ".json", "w", "utf-8", 2, false, p.2⟩
    else none)

lemma mem_create_ragas_dataset {retrieve : String → List String}
    {queries : List String} {q : String} {docs : List String} :
    (q, docs) ∈ create_ragas_dataset retrieve queries ↔
      q ∈ queries ∧ docs = retrieve q ∧ docs ≠ [] := by
  unfold create_ragas_dataset
  rw [List.mem_filterMap]
  constructor
  · rintro ⟨a, ha, hf⟩
    by_cases he : (retrieve a).isEmpty <;> simp [he] at hf
    obtain ⟨rfl, rfl⟩ := hf
    exact ⟨ha, rfl, by simpa [List.isEmpty_iff] using he⟩
  · rintro ⟨hq, rfl, hne⟩
    exact ⟨q, hq, by simp [List.isEmpty_iff, hne]⟩

/-- C3: with the error handling of the adapter, a query whose retrieval raises
(or returns no texts) is skipped while the others are kept; every dataset
entry has a non-empty text list; a successful non-empty retrieval for a
query in the batch is kept; and an entirely empty dataset makes the
evaluator report "No valid data" instead of evaluating. -/
theorem create_ragas_dataset_skips_invalid
    (underlying : String → Except String (List String)) (queries : List String) :
    (∀ q docs,
        (q, docs) ∈ create_ragas_dataset (adapterRetrieve underlying) queries →
        docs ≠ []) ∧
    (∀ q, q ∈ queries → (∃ e, underlying q = Except.error e) →
        ∀ docs,
          (q, docs) ∉ create_ragas_dataset (adapterRetrieve underlying) queries) ∧
    (∀ q docs, q ∈ queries → underlying q = Except.ok docs → docs ≠ [] →
        (q, docs) ∈ create_ragas_dataset (adapterRetrieve underlying) queries) ∧
    (∀ name evalFn,
        create_ragas_dataset (adapterRetrieve underlying) queries = [] →
        evaluate_retriever name (adapterRetrieve underlying) queries evalFn =
          [("error", JsonVal.str "No valid data")]) := by
  refine ⟨?_, ?_, ?_, ?_⟩
  · intro q docs h
    exact (mem_create_ragas_dataset.mp h).2.2
  · rintro q hq ⟨e, he⟩ docs hmem
    obtain ⟨-, hdocs, hne⟩ := mem_create_ragas_dataset.mp hmem
    rw [hdocs] at hne
    exact hne (by simp [adapterRetrieve, he])
  · intro q docs hq hok hne
    exact mem_create_ragas_dataset.mpr ⟨hq, by simp [adapterRetrieve, hok], hne⟩
  · intro name evalFn h
    simp [evaluate_retriever, h]

/-- Witness for C3: with a batch of a succeeding, a raising and an
empty-result query, the dataset keeps exactly the succeeding one; and a
batch with only a raising query is reported as having no valid data. -/
theorem create_ragas_dataset_skips_invalid_witness :
    ("good", ["doc"]) ∈
      create_ragas_dataset
        (adapterRetrieve (fun q =>
          if q = "bad" then Except.error "boom"
          else if q = "empty" then Except.ok []
          else Except.ok ["doc"]))
        ["good", "bad", "empty"] ∧
    ("bad", []) ∉
      create_ragas_dataset
        (adapterRetrieve (fun q =>
          if q = "bad" then Except.error "boom"
          else if q = "empty" then Except.ok []
          else Except.ok ["doc"]))
        ["good", "bad", "empty"] ∧
    evaluate_retriever "simple_rag"
        (adapterRetrieve (fun _ => Except.error "boom")) ["bad"]
        (fun _ => Except.error "x") =
      [("error", JsonVal.str "No valid data")] :=
  ⟨(create_ragas_dataset_skips_invalid
        (fun q =>
          if q = "bad" then Except.error "boom"
          else if q = "empty" then Except.ok []
          else Except.ok ["doc"])
        ["good", "bad", "empty"]).2.2.1 "good" ["doc"] (by decide) rfl (by decide),
   (create_ragas_dataset_skips_invalid
        (fun q =>
          if q = "bad" then Except.error "boom"
          else if q = "empty" then Except.ok []
          else Except.ok ["doc"])
        ["good", "bad", "empty"]).2.1 "bad" (by decide) ⟨"boom", rfl⟩ [],
   (create_ragas_dataset_skips_invalid (fun _ => Except.error "boom")
        ["bad"]).2.2.2 "simple_rag" (fun _ => Except.error "x") rfl⟩

lemma extractDirect_eq_of_none {results : RagasResults} (d : ResultDict)
    (h : directExtract results = none) : extractDirect results d = d := by
  unfold extractDirect
  unfold directExtract at h
  cases hg : results.getItem with
  | error e => rfl
  | ok v =>
    rw [hg] at h
    cases hf : pyFloatOf v with
    | error e => simp [hf]
    | ok x => simp [hf, Except.toOption] at h

lemma extractInto_eq_of_no_extract {results : RagasResults} (d : ResultDict)
    (h1 : regexExtract results = none) (h2 : directExtract results = none) :
    extractInto results d = d := by
  unfold extractInto extractTryBody
  unfold regexExtract at h1
  cases hg : results.hasGetitem with
  | false => simp
  | true =>
    simp only [if_true]
    by_cases hs : strContains results.reprStr nvName
    · rw [if_pos hs] at h1
      rw [if_pos hs]
      cases hr : regexSearchNv results.reprStr.data with
      | none => exact extractDirect_eq_of_none d h2
      | some cap =>
        rw [hr] at h1
        cases hf : pyFloatChars cap with
        | error e => simp [hf]
        | ok v => simp [hf, Except.toOption] at h1
    · rw [if_neg hs] at h1 ⊢
      exact extractDirect_eq_of_none d h2

/-- Counterexample to C4: a result object whose printed form does not
mention the metric and whose subscripting raises `KeyError` (extraction
fails) yields a summary record in which the configured metric is absent —
it is not defaulted to `0.0`. -/
theorem evaluate_retriever_no_zero_default :
    dictGet
        (evaluate_retriever "simple_rag" (fun _ => ["doc"]) ["q1"]
          (fun _ =>
            Except.ok ⟨"EvaluationResult", true, Except.error PyError.keyError⟩))
        nvName = none ∧
    dictGet
        (evaluate_retriever "simple_rag" (fun _ => ["doc"]) ["q1"]
          (fun _ =>
            Except.ok ⟨"EvaluationResult", true, Except.error PyError.keyError⟩))
        nvName ≠ some (JsonVal.float 0) := by
  constructor <;> decide

/-- C4 (amended): when the metric cannot be extracted from the external
result (neither the regex fallback nor direct subscripting produces a
float), the harness neither raises nor defaults the metric to `0.0`: it
returns the summary record with only the retriever name, the query count
and the raw results, omitting the metric key, and the evaluation loop still
produces one record per registered retriever. -/
theorem evaluate_retriever_extraction_failure
    (name : String) (retrieve : String → List String) (queries : List String)
    (evalFn : List (String × List String) → Except String RagasResults)
    (results : RagasResults)
    (hok : evalFn (create_ragas_dataset retrieve queries) = Except.ok results)
    (hne : create_ragas_dataset retrieve queries ≠ [])
    (h1 : regexExtract results = none) (h2 : directExtract results = none) :
    evaluate_retriever name retrieve queries evalFn =
      [("retriever", JsonVal.str name),
       ("num_queries", JsonVal.int (create_ragas_dataset retrieve queries).length),
       ("raw_results", JsonVal.str results.reprStr)] ∧
    dictGet (evaluate_retriever name retrieve queries evalFn) nvName = none ∧
    (∀ adapters : List (String × (String → List String)),
        (run_evaluation adapters queries evalFn).map Prod.fst =
          adapters.map Prod.fst) := by
  have hlen : ¬ (create_ragas_dataset retrieve queries).length = 0 := by
    simpa [List.length_eq_zero] using hne
  have heval : evaluate_retriever name retrieve queries evalFn =
      [("retriever", JsonVal.str name),
       ("num_queries", JsonVal.int (create_ragas_dataset retrieve queries).length),
       ("raw_results", JsonVal.str results.reprStr)] := by
    simp only [evaluate_retriever, hlen, if_false, hok]
    exact extractInto_eq_of_no_extract _ h1 h2
  refine ⟨heval, ?_, ?_⟩
  · rw [heval]; rfl
  · intro adapters
    simp [run_evaluation]

/-- Witness for C4 (amended): on the concrete inputs of the counterexample the
metric key is absent from the returned summary record. -/
theorem evaluate_retriever_extraction_failure_witness :
    dictGet
        (evaluate_retriever "simple_rag" (fun _ => ["doc"]) ["q1"]
          (fun _ =>
            Except.ok ⟨"EvaluationResult", true, Except.error PyError.keyError⟩))
        nvName = none :=
  (evaluate_retriever_extraction_failure "simple_rag" (fun _ => ["doc"]) ["q1"]
      (fun _ =>
        Except.ok ⟨"EvaluationResult", true, Except.error PyError.keyError⟩)
      ⟨"EvaluationResult", true, Except.error PyError.keyError⟩
      rfl (by decide) (by decide) (by decide)).2.1

/-- Counterexample to C8: a retriever whose evaluation produced an error
record (here: no valid data) is skipped by `save_results` — no file is
written for it. -/
theorem save_results_skips_error_records :
    save_results
        [("simple_rag",
          evaluate_retriever "simple_rag" (fun _ => []) ["q1"]
            (fun _ => Except.error "x"))]
        "evaluation" = [] := rfl

lemma save_results_length (results : List (String × ResultDict))
    (output_dir : String) :
    (save_results results output_dir).length =
      (results.filter (fun p => (dictGet p.2 "error").isNone)).length := by
  induction results with
  | nil => rfl
  | cons p rest ih =>
    simp only [save_results, List.filterMap_cons, List.filter_cons,
      Option.isNone_iff_eq_none] at *
    by_cases hc : dictGet p.2 "error" = none
    · simp [hc, ih, Option.isNone_iff_eq_none]
    · simp [hc, ih, Option.isNone_iff_eq_none]

/-- C8 (amended): for every retriever whose summary record has no `error`
key, `save_results` emits exactly one write of `results_<name>.json` under
the output directory, in overwrite mode `w`, encoding `utf-8`, with
`indent=2` and `ensure_ascii=False`, containing that record; every write
comes from such a retriever; retrievers whose record has an `error` key are
skipped. -/
theorem save_results_per_retriever
    (results : List (String × ResultDict)) (output_dir : String) :
    (∀ name r, (name, r) ∈ results → dictGet r "error" = none →
        (⟨output_dir ++ "/results_" ++ name ++ ".json", "w", "utf-8", 2, false, r⟩ :
            FileWrite) ∈ save_results results output_dir) ∧
    (∀ w ∈ save_results results output_dir, ∃ name r,
        (name, r) ∈ results ∧ dictGet r "error" = none ∧
        w = ⟨output_dir ++ "/results_" ++ name ++ ".json", "w", "utf-8", 2, false, r⟩) ∧
    (save_results results output_dir).length =
      (results.filter (fun p => (dictGet p.2 "error").isNone)).length := by
  refine ⟨?_, ?_, save_results_length results output_dir⟩
  · intro name r hmem hget
    unfold save_results
    exact List.mem_filterMap.mpr ⟨(name, r), hmem, by simp [hget]⟩
  · intro w hw
    obtain ⟨p, hp, hf⟩ := List.mem_filterMap.mp hw
    by_cases hc : (dictGet p.2 "error").isNone
    · rw [if_pos hc] at hf
      injection hf with hf
      exact ⟨p.1, p.2, hp, Option.isNone_iff_eq_none.mp hc, hf.symm⟩
    · rw [if_neg hc] at hf
      exact absurd hf (by simp)

/-- Witness for C8 (amended): a single error-free summary record produces
its one overwrite-mode UTF-8 file. -/
theorem save_results_per_retriever_witness :
    (⟨"evaluation" ++ "/results_" ++ "simple_rag" ++ ".json", "w", "utf-8", 2, false,
        [("retriever", JsonVal.str "simple_rag"), ("num_queries", JsonVal.int 1)]⟩ :
      FileWrite) ∈
      save_results
        [("simple_rag",
          [("retriever", JsonVal.str "simple_rag"), ("num_queries", JsonVal.int 1)])]
        "evaluation" :=
  (save_results_per_retriever
      [("simple_rag",
        [("retriever", JsonVal.str "simple_rag"), ("num_queries", JsonVal.int 1)])]
      "evaluation").1 "simple_rag"
    [("retriever", JsonVal.str "simple_rag"), ("num_queries", JsonVal.int 1)]
    (List.mem_cons_self _ _) rfl

end Mentis
